import Mathlib

/-!
# Zobbo backend: shallow embedding and verification

This file embeds the game engine of the Zobbo backend
(`backend/src/main.rs`) in Lean 4 and proves properties about it.

Embedding conventions:
* Rust `Vec` stacks (`deck`, `discard`) push/pop at the end; here the list
  HEAD is the top of the stack, so `pop` is pattern matching on `c :: rest`
  and `push c` is `c :: rest`.
* `HashMap<Uuid, Seat>` with exactly two seats is embedded as two fixed
  seats addressed by a two-element `Player` type; `HashSet<Uuid>` for
  `skip_next` becomes one membership flag per seat.
* Rust handlers take `&mut GameState` and return `Result<(), ()>`; every
  `Err` path of the embedded handlers leaves the state untouched in the
  source (including the explicit rollback in `handle_power_swap_with_opp`),
  so they are embedded as `GameState → ... → Option GameState`, `none`
  meaning "rejected, no mutation".
* `u64` versions use `wrapping_add(1)`, embedded as `(v + 1) % 2 ^ 64`.
* The deck reshuffle in `ensure_deck` and the initial shuffle in
  `build_deck` are random; handlers that may reshuffle take the
  permuting function `sh` as an explicit parameter, and dealing is over
  an arbitrary deck order.
-/

inductive Rank
  | ace | two | three | four | five | six | seven | eight | nine | ten
  | jack | queen | king
deriving DecidableEq

inductive Suit
  | clubs | diamonds | hearts | spades
deriving DecidableEq

/-- `Suit::is_red`. -/
def Suit.isRed : Suit → Bool
  | .diamonds => true
  | .hearts => true
  | _ => false

structure Card where
  rank : Rank
  suit : Suit
deriving DecidableEq

/-- The two seats of a room (the source keys seats by `Uuid`, with exactly
two entries). -/
inductive Player
  | a | b
deriving DecidableEq

/-- The seat that is not `p` (`opponent_of` / `next_player` in the source
always find the unique other key of the two-seat map). -/
def Player.other : Player → Player
  | .a => .b
  | .b => .a

inductive DrawSource
  | deck | discard
deriving DecidableEq

inductive TurnStage
  | awaitDraw
  | holding (card : Card) (src : DrawSource)
  | power (card : Card)
deriving DecidableEq

structure ZobboState where
  caller : Player
  remaining : Nat
deriving DecidableEq

structure Seat where
  slots : List (Option Card)
  versions : List Nat
deriving DecidableEq

structure GameState where
  deck : List Card
  discard : List Card
  seatA : Seat
  seatB : Seat
  active : Player
  stage : TurnStage
  skipA : Bool
  skipB : Bool
  zobbo : Option ZobboState
deriving DecidableEq

def seatOf (g : GameState) : Player → Seat
  | .a => g.seatA
  | .b => g.seatB

def setSeat (g : GameState) : Player → Seat → GameState
  | .a, s => { g with seatA := s }
  | .b, s => { g with seatB := s }

/-- Membership of a seat in the `skip_next` set. -/
def skipOf (g : GameState) : Player → Bool
  | .a => g.skipA
  | .b => g.skipB

def setSkip (g : GameState) : Player → Bool → GameState
  | .a, v => { g with skipA := v }
  | .b, v => { g with skipB := v }

/-- `seat.versions[index] = seat.versions[index].wrapping_add(1)`. -/
def bumpVersion (vs : List Nat) (i : Nat) : List Nat :=
  vs.set i ((vs.getD i 0 + 1) % 2 ^ 64)

/-- `build_deck` before the shuffle: for each suit in order, all thirteen
ranks in order. -/
def fullDeck : List Card :=
  ([Suit.clubs, Suit.diamonds, Suit.hearts, Suit.spades].map fun s =>
    ([Rank.ace, Rank.two, Rank.three, Rank.four, Rank.five, Rank.six,
      Rank.seven, Rank.eight, Rank.nine, Rank.ten, Rank.jack, Rank.queen,
      Rank.king].map fun r => Card.mk r s)).flatten

/-- `ensure_deck`: if the deck is empty and the discard has more than one
card, keep the top of the discard and move the rest (reshuffled by `sh`)
back into the deck. -/
def ensureDeck (sh : List Card → List Card) (g : GameState) : GameState :=
  if g.deck = [] ∧ 1 < g.discard.length then
    match g.discard with
    | top :: rest => { g with deck := sh rest, discard := [top] }
    | [] => g
  else g

/-- `draw_from_deck`: `ensure_deck` then pop. -/
def drawFromDeck (sh : List Card → List Card) (g : GameState) :
    Option Card × GameState :=
  let g1 := ensureDeck sh g
  match g1.deck with
  | [] => (none, g1)
  | c :: rest => (some c, { g1 with deck := rest })

/-- `end_turn_common`: advance `active` to the other seat unless that seat
is in `skip_next` (then remove it and keep `active`), reset the stage,
decrement the zobbo countdown (floor 0), and report whether
`reveal_and_finish` is triggered (countdown present and now 0). -/
def endTurnCommon (g : GameState) : GameState × Bool :=
  let nxt := g.active.other
  let g1 :=
    if skipOf g nxt then
      { setSkip g nxt false with stage := TurnStage.awaitDraw }
    else
      { g with active := nxt, stage := TurnStage.awaitDraw }
  let g2 :=
    match g1.zobbo with
    | some z =>
        if 0 < z.remaining then
          { g1 with zobbo := some ⟨z.caller, z.remaining - 1⟩ }
        else g1
    | none => g1
  (g2, match g2.zobbo with
       | some z => z.remaining == 0
       | none => false)

/-- `handle_draw`. -/
def handleDraw (sh : List Card → List Card) (g : GameState) (pid : Player)
    (src : DrawSource) : Option GameState :=
  if g.active ≠ pid then none
  else if g.stage ≠ TurnStage.awaitDraw then none
  else
    match src with
    | .deck =>
        match drawFromDeck sh g with
        | (some c, g1) => some { g1 with stage := TurnStage.holding c .deck }
        | (none, _) => none
    | .discard =>
        match g.discard with
        | c :: rest =>
            some { g with discard := rest,
                          stage := TurnStage.holding c .discard }
        | [] => none

/-- `handle_swap_with_hand`: replace an occupied own slot with the held
card, discard the replaced card, bump the slot version, end the turn. -/
def handleSwapWithHand (g : GameState) (pid : Player) (index : Nat) :
    Option GameState :=
  if g.active ≠ pid then none
  else
    match g.stage with
    | .holding card _ =>
        let seat := seatOf g pid
        match seat.slots.get? index with
        | some (some replaced) =>
            let seat1 : Seat :=
              ⟨seat.slots.set index (some card), bumpVersion seat.versions index⟩
            let g1 := setSeat g pid seat1
            let g2 := { g1 with discard := replaced :: g1.discard,
                                stage := TurnStage.awaitDraw }
            some (endTurnCommon g2).1
        | _ => none
    | _ => none

/-- Rank membership in the power set
`{Five, Six, Seven, Eight, Nine, Ten, Jack, Queen, King}` tested by
`handle_discard_drawn`. -/
def powerRank (r : Rank) : Bool :=
  match r with
  | .five | .six | .seven | .eight | .nine | .ten | .jack | .queen | .king =>
      true
  | _ => false

/-- `handle_discard_drawn`: push the held card on the discard; grant a power
per the source's two conditions (note the second condition tests only
"King and red", without consulting the draw source), else end the turn. -/
def handleDiscardDrawn (g : GameState) (pid : Player) : Option GameState :=
  if g.active ≠ pid then none
  else
    match g.stage with
    | .holding card src =>
        let g1 := { g with discard := card :: g.discard }
        if (src = DrawSource.deck ∧ powerRank card.rank = true) ∧
            card.rank ≠ Rank.king then
          some { g1 with stage := TurnStage.power card }
        else if card.rank = Rank.king ∧ card.suit.isRed = true then
          some { g1 with stage := TurnStage.power card }
        else
          some (endTurnCommon { g1 with stage := TurnStage.awaitDraw }).1
    | _ => none

/-- `handle_match_top`: no turn or stage check; on a rank match clear the
slot and bump its version (the source does not push the removed card to the
discard pile); on a mismatch add the attempting player to `skip_next`. -/
def handleMatchTop (g : GameState) (pid : Player) (index : Nat) :
    Option GameState :=
  match g.discard with
  | [] => none
  | top :: _ =>
      let seat := seatOf g pid
      match seat.slots.get? index with
      | some (some c) =>
          if c.rank = top.rank then
            some (setSeat g pid
              ⟨seat.slots.set index none, bumpVersion seat.versions index⟩)
          else
            some (setSkip g pid true)
      | _ => none

/-- `handle_call_zobbo`: only while `AwaitDraw`, only for the non-active
player; set the countdown if not already set, a second call is a no-op. -/
def handleCallZobbo (g : GameState) (pid : Player) : Option GameState :=
  if g.stage ≠ TurnStage.awaitDraw then none
  else if g.active = pid then none
  else if g.zobbo = none then some { g with zobbo := some ⟨pid, 2⟩ }
  else some g

/-- `handle_power_check_own` (ranks 5–8): peek an occupied own slot (no
state change beyond ending the turn). -/
def handlePowerCheckOwn (g : GameState) (pid : Player) (index : Nat) :
    Option GameState :=
  if g.active ≠ pid then none
  else
    match g.stage with
    | .power card =>
        if card.rank = Rank.five ∨ card.rank = Rank.six ∨
            card.rank = Rank.seven ∨ card.rank = Rank.eight then
          match (seatOf g pid).slots.get? index with
          | some (some _) => some (endTurnCommon g).1
          | _ => none
        else none
    | _ => none

/-- `handle_power_check_opp` (ranks 9–10): peek an occupied opponent slot. -/
def handlePowerCheckOpp (g : GameState) (pid : Player) (index : Nat) :
    Option GameState :=
  if g.active ≠ pid then none
  else
    match g.stage with
    | .power card =>
        if card.rank = Rank.nine ∨ card.rank = Rank.ten then
          match (seatOf g pid.other).slots.get? index with
          | some (some _) => some (endTurnCommon g).1
          | _ => none
        else none
    | _ => none

/-- `handle_power_swap_with_deck` (Jack): pull the top deck card into an own
slot, the old card goes on top of the deck; on an empty slot nothing is
swapped but the turn still ends; on an empty deck the old card is
restored. -/
def handlePowerSwapWithDeck (sh : List Card → List Card) (g : GameState)
    (pid : Player) (index : Nat) : Option GameState :=
  if g.active ≠ pid then none
  else
    match g.stage with
    | .power card =>
        if card.rank = Rank.jack then
          let seat := seatOf g pid
          match seat.slots.get? index with
          | none => none
          | some none => some (endTurnCommon g).1
          | some (some old) =>
              let g1 := setSeat g pid { seat with slots := seat.slots.set index none }
              match drawFromDeck sh g1 with
              | (some newc, g2) =>
                  let seat2 := seatOf g2 pid
                  let g3 := setSeat g2 pid
                    ⟨seat2.slots.set index (some newc), bumpVersion seat2.versions index⟩
                  some (endTurnCommon { g3 with deck := old :: g3.deck }).1
              | (none, g2) =>
                  let seat2 := seatOf g2 pid
                  let g3 := setSeat g2 pid
                    { seat2 with slots := seat2.slots.set index (some old) }
                  some (endTurnCommon g3).1
        else none
    | _ => none

/-- `handle_power_swap_with_opp` (Queen): exchange an own slot with an
opponent slot; on any out-of-range or empty operand the source restores the
already-removed card and reports failure, leaving the state as found. -/
def handlePowerSwapWithOpp (g : GameState) (pid : Player)
    (myIndex oppIndex : Nat) : Option GameState :=
  if g.active ≠ pid then none
  else
    match g.stage with
    | .power card =>
        if card.rank = Rank.queen then
          match (seatOf g pid).slots.get? myIndex,
                (seatOf g pid.other).slots.get? oppIndex with
          | some (some myCard), some (some oppCard) =>
              let seatMe := seatOf g pid
              let g1 := setSeat g pid
                ⟨seatMe.slots.set myIndex (some oppCard),
                 bumpVersion seatMe.versions myIndex⟩
              let seatOpp := seatOf g1 pid.other
              let g2 := setSeat g1 pid.other
                ⟨seatOpp.slots.set oppIndex (some myCard),
                 bumpVersion seatOpp.versions oppIndex⟩
              some (endTurnCommon g2).1
          | _, _ => none
        else none
    | _ => none

/-- `handle_power_opp_swap_with_deck` (red King): the Jack mechanic applied
to a chosen opponent slot. -/
def handlePowerOppSwapWithDeck (sh : List Card → List Card) (g : GameState)
    (pid : Player) (oppIndex : Nat) : Option GameState :=
  if g.active ≠ pid then none
  else
    match g.stage with
    | .power card =>
        if card.rank = Rank.king ∧ card.suit.isRed = true then
          let opp := pid.other
          let seat := seatOf g opp
          match seat.slots.get? oppIndex with
          | none => none
          | some none => some (endTurnCommon g).1
          | some (some old) =>
              let g1 := setSeat g opp { seat with slots := seat.slots.set oppIndex none }
              match drawFromDeck sh g1 with
              | (some newc, g2) =>
                  let seat2 := seatOf g2 opp
                  let g3 := setSeat g2 opp
                    ⟨seat2.slots.set oppIndex (some newc), bumpVersion seat2.versions oppIndex⟩
                  some (endTurnCommon { g3 with deck := old :: g3.deck }).1
              | (none, g2) =>
                  let seat2 := seatOf g2 opp
                  let g3 := setSeat g2 opp
                    { seat2 with slots := seat2.slots.set oppIndex (some old) }
                  some (endTurnCommon g3).1
        else none
    | _ => none

/-- `handle_end_turn`. -/
def handleEndTurn (g : GameState) (pid : Player) : Option GameState :=
  if g.active = pid then some (endTurnCommon g).1 else none

/-- `start_game`: deal six cards to each seat from the (shuffled) deck,
versions zero, empty discard, stage `AwaitDraw`, no zobbo. -/
def dealSeat (deck : List Card) : Seat × List Card :=
  (⟨(deck.take 6).map some, List.replicate 6 0⟩, deck.drop 6)

def startGame (deck : List Card) (starting : Player) : GameState :=
  let p1 := dealSeat deck
  let p2 := dealSeat p1.2
  { deck := p2.2, discard := [], seatA := p1.1, seatB := p2.1,
    active := starting, stage := TurnStage.awaitDraw,
    skipA := false, skipB := false, zobbo := none }

/-- `rank_points`. -/
def rankPoints (c : Card) : Nat :=
  match c.rank with
  | .ace => 1
  | .two => 2
  | .three => 3
  | .four => 4
  | .five => 5
  | .six => 6
  | .seven => 7
  | .eight => 8
  | .nine => 9
  | .ten => 10
  | .jack => 11
  | .queen => 12
  | .king => if c.suit.isRed then 13 else 0

/-- Score of one seat in `reveal_and_finish`: sum of `rank_points` over the
occupied slots. -/
def seatScore (s : Seat) : Nat :=
  ((s.slots.filterMap id).map rankPoints).sum

/-- `reveal_and_finish` (its observable outcome): both scores and the
declared winner. -/
def revealAndFinish (g : GameState) : Nat × Nat × Option Player :=
  let sa := seatScore g.seatA
  let sb := seatScore g.seatB
  (sa, sb, if sa < sb then some Player.a
           else if sb < sa then some Player.b
           else none)

/-- Cards counted the way claim C1 counts them: deck, discard, and occupied
seat slots. -/
def cardCount (g : GameState) : Nat :=
  g.deck.length + g.discard.length +
    (g.seatA.slots.filterMap id).length + (g.seatB.slots.filterMap id).length

/-- The scoring table exactly as the spec words it: Ace=1 through Ten=10,
Jack=11, Queen=12, red King=13, black King=0. -/
def specPoints (c : Card) : Nat :=
  match c.rank, c.suit with
  | .ace, _ => 1
  | .two, _ => 2
  | .three, _ => 3
  | .four, _ => 4
  | .five, _ => 5
  | .six, _ => 6
  | .seven, _ => 7
  | .eight, _ => 8
  | .nine, _ => 9
  | .ten, _ => 10
  | .jack, _ => 11
  | .queen, _ => 12
  | .king, .diamonds => 13
  | .king, .hearts => 13
  | .king, .clubs => 0
  | .king, .spades => 0

/-! ## Signed token scheme (`issue_token` / `verify_token`)

Tokens are `Char` lists; byte strings are `Nat` lists with entries < 256.
The base64url (no padding) alphabet and group arithmetic are embedded
concretely; the external `hmac` crate's HMAC-SHA256 and serde_json's
(de)serialization of the claims record `{room, player, iat}` are parameters
of the embedding, constrained in the theorems by their library contracts
(byte output, parse inverts serialize). -/

/-- The base64url alphabet: `A-Z`, `a-z`, `0-9`, `-`, `_`. -/
def b64char (n : Nat) : Char :=
  if n < 26 then Char.ofNat (65 + n)
  else if n < 52 then Char.ofNat (97 + (n - 26))
  else if n < 62 then Char.ofNat (48 + (n - 52))
  else if n = 62 then '-'
  else '_'

/-- Inverse of the base64url alphabet; `none` on characters outside it. -/
def b64charVal (c : Char) : Option Nat :=
  if 65 ≤ c.toNat ∧ c.toNat ≤ 90 then some (c.toNat - 65)
  else if 97 ≤ c.toNat ∧ c.toNat ≤ 122 then some (c.toNat - 97 + 26)
  else if 48 ≤ c.toNat ∧ c.toNat ≤ 57 then some (c.toNat - 48 + 52)
  else if c = '-' then some 62
  else if c = '_' then some 63
  else none

/-- base64url encoding without padding: groups of three bytes become four
sextet characters, with two- and three-character tails. -/
def b64encode : List Nat → List Char
  | [] => []
  | [b1] => [b64char (b1 / 4), b64char (b1 % 4 * 16)]
  | [b1, b2] =>
      [b64char (b1 / 4), b64char (b1 % 4 * 16 + b2 / 16),
       b64char (b2 % 16 * 4)]
  | b1 :: b2 :: b3 :: rest =>
      b64char (b1 / 4) :: b64char (b1 % 4 * 16 + b2 / 16) ::
      b64char (b2 % 16 * 4 + b3 / 64) :: b64char (b3 % 64) :: b64encode rest

/-- base64url decoding without padding; rejects a length of 1 mod 4,
characters outside the alphabet, and nonzero trailing bits. -/
def b64decode : List Char → Option (List Nat)
  | [] => some []
  | [_] => none
  | [c1, c2] =>
      match b64charVal c1, b64charVal c2 with
      | some v1, some v2 =>
          if v2 % 16 = 0 then some [v1 * 4 + v2 / 16] else none
      | _, _ => none
  | [c1, c2, c3] =>
      match b64charVal c1, b64charVal c2, b64charVal c3 with
      | some v1, some v2, some v3 =>
          if v3 % 4 = 0 then
            some [v1 * 4 + v2 / 16, v2 % 16 * 16 + v3 / 4]
          else none
      | _, _, _ => none
  | c1 :: c2 :: c3 :: c4 :: rest =>
      match b64charVal c1, b64charVal c2, b64charVal c3, b64charVal c4,
            b64decode rest with
      | some v1, some v2, some v3, some v4, some bs =>
          some ((v1 * 4 + v2 / 16) :: (v2 % 16 * 16 + v3 / 4) ::
                (v3 % 4 * 64 + v4) :: bs)
      | _, _, _, _, _ => none

/-- `token.split('.')` over character lists. -/
def splitOnDot : List Char → List (List Char)
  | [] => [[]]
  | c :: rest =>
      if c = '.' then [] :: splitOnDot rest
      else
        match splitOnDot rest with
        | [] => [[c]]
        | h :: t => (c :: h) :: t

/-- `issue_token`: base64url of the serialized claims payload, a dot, and
base64url of the payload's HMAC-SHA256. -/
def issueToken (hmac : List Nat → List Nat) (ser : Nat → Nat → Int → List Nat)
    (r p : Nat) (t : Int) : List Char :=
  b64encode (ser r p t) ++ '.' :: b64encode (hmac (ser r p t))

/-- `verify_token`: split on dots requiring exactly two segments,
base64url-decode both, recompute the HMAC over the decoded payload bytes,
require byte-exact equality, then parse the payload into (room, player). -/
def verifyToken (hmac : List Nat → List Nat)
    (parse : List Nat → Option (Nat × Nat)) (tok : List Char) :
    Option (Nat × Nat) :=
  match splitOnDot tok with
  | p1 :: p2 :: rest =>
      if rest = [] then
        match b64decode p1, b64decode p2 with
        | some payload, some sig =>
            if sig = hmac payload then parse payload else none
        | _, _ => none
      else none
  | _ => none

/-- Concrete stand-in for the HMAC parameter, used to instantiate the
token theorem at a closed input. -/
def hmacW : List Nat → List Nat := fun bs => [bs.length % 256]

/-- Concrete stand-in for serde_json serialization of the claims record. -/
def serW : Nat → Nat → Int → List Nat := fun _ _ _ => [1, 2, 3]

/-- Concrete stand-in for serde_json deserialization, inverting `serW` for
the room/player pair `(7, 9)`. -/
def parseW : List Nat → Option (Nat × Nat) := fun bs =>
  if bs = [1, 2, 3] then some (7, 9) else none

/-! ## Concrete states used as inputs -/

/-- The state after, from a fresh deal of `fullDeck` with seat `a` starting:
`a` draws the King of clubs from the deck and discards it (black King, no
power), `b` draws the Ace of diamonds and discards it (no power). Seat `a`
slot 0 holds the Ace of clubs, matching the discard top's rank. -/
def gMatchReady : GameState :=
  { deck := fullDeck.drop 14
  , discard := [Card.mk Rank.ace Suit.diamonds, Card.mk Rank.king Suit.clubs]
  , seatA := ⟨(fullDeck.take 6).map some, List.replicate 6 0⟩
  , seatB := ⟨((fullDeck.drop 6).take 6).map some, List.replicate 6 0⟩
  , active := Player.a
  , stage := TurnStage.awaitDraw
  , skipA := false, skipB := false, zobbo := none }

/-- A state in which the active player holds the King of hearts drawn from
the discard pile (the pile had exactly that card, so it is now empty). -/
def gHoldRedKing : GameState :=
  { deck := (fullDeck.drop 12).filter (fun c => c ≠ Card.mk Rank.king Suit.hearts)
  , discard := []
  , seatA := ⟨(fullDeck.take 6).map some, List.replicate 6 0⟩
  , seatB := ⟨((fullDeck.drop 6).take 6).map some, List.replicate 6 0⟩
  , active := Player.a
  , stage := TurnStage.holding (Card.mk Rank.king Suit.hearts) DrawSource.discard
  , skipA := false, skipB := false, zobbo := none }

/-- `gMatchReady` with a freshly registered zobbo countdown of 2. -/
def gZobbo2 : GameState := { gMatchReady with zobbo := some ⟨Player.b, 2⟩ }

/-- `gMatchReady` with the non-active seat owed a skipped turn. -/
def gSkipW : GameState := { gMatchReady with skipB := true }

/-- `gMatchReady` with the active player in the Queen power stage. -/
def gQueenW : GameState :=
  { gMatchReady with stage := TurnStage.power (Card.mk Rank.queen Suit.spades) }

/-! ## Theorems -/

/-- C1: card conservation fails on the code. From a freshly dealt game
(deck `fullDeck`, the identity shuffle), after the reachable action
sequence draw/discard (seat a), draw/discard (seat b), then a successful
match of seat a's slot 0 against the discard top, the deck, discard and
occupied slots hold only 51 cards: `handle_match_top` clears the matched
slot without pushing the removed card onto the discard pile. -/
theorem matchTop_breaks_card_conservation :
    (((((handleDraw id (startGame fullDeck Player.a) Player.a DrawSource.deck).bind
        (fun g => handleDiscardDrawn g Player.a)).bind
        (fun g => handleDraw id g Player.b DrawSource.deck)).bind
        (fun g => handleDiscardDrawn g Player.b)).bind
        (fun g => handleMatchTop g Player.a 0)).map
        (fun g => (cardCount g, g.stage))
      = some (51, TurnStage.awaitDraw) := by decide

/-- C2: the power grant rule fails on the code. With the active player
holding the King of hearts drawn from the discard pile, discarding it
transitions the stage to `Power` (the source's red-King branch does not
consult the draw source), where the claim requires the turn to end with no
power. -/
theorem redKing_from_discard_grants_power :
    (handleDiscardDrawn gHoldRedKing Player.a).map
        (fun g => (g.stage, g.discard, g.active))
      = some (TurnStage.power (Card.mk Rank.king Suit.hearts),
              [Card.mk Rank.king Suit.hearts], Player.a) := by decide

/-- C3: on a successful match the slot is cleared, its version bumped and
the turn unchanged, but the removed card (the Ace of clubs) is NOT placed
on the discard pile: the discard is exactly as before the call. -/
theorem matched_card_not_discarded :
    (handleMatchTop gMatchReady Player.a 0).map
        (fun g => (g.seatA.slots.get? 0, g.seatA.versions.get? 0,
                   g.discard, g.active, g.stage))
      = some (some none, some 1,
              [Card.mk Rank.ace Suit.diamonds, Card.mk Rank.king Suit.clubs],
              Player.a, TurnStage.awaitDraw) := by decide

/-! ## Structural lemmas about `endTurnCommon` -/

theorem setSkip_zobbo (g : GameState) (p : Player) (v : Bool) :
    (setSkip g p v).zobbo = g.zobbo := by
  cases p <;> rfl

theorem setSkip_active (g : GameState) (p : Player) (v : Bool) :
    (setSkip g p v).active = g.active := by
  cases p <;> rfl

/-- The zobbo countdown behavior of `end_turn_common`: with a pending
countdown `n`, after one execution the countdown is `n - 1` (floor 0) and
`reveal_and_finish` is triggered exactly when that value is 0. -/
theorem endTurnCommon_zobbo (g : GameState) (c : Player) (n : Nat)
    (h : g.zobbo = some ⟨c, n⟩) :
    ((endTurnCommon g).1).zobbo = some ⟨c, n - 1⟩ ∧
    (endTurnCommon g).2 = (n - 1 == 0) := by
  obtain ⟨dk, dc, sa, sb, act, st, ka, kb, zb⟩ := g
  replace h : zb = some ⟨c, n⟩ := h
  subst h
  cases act <;> cases ka <;> cases kb <;>
    rcases n with _ | m <;>
      simp [endTurnCommon, skipOf, setSkip, Player.other]

/-- C4 counterexample: in a state where the zobbo countdown was just set to
2, the second `end_turn_common` triggers `reveal_and_finish` — but so does
the third (and every later) execution, since the countdown stays at 0 and
the trigger condition is "countdown equals 0", contradicting "triggered
exactly once, not again on later executions". -/
theorem reveal_triggered_again_after_zero :
    (endTurnCommon gZobbo2).2 = false ∧
    (endTurnCommon (endTurnCommon gZobbo2).1).2 = true ∧
    (endTurnCommon (endTurnCommon (endTurnCommon gZobbo2).1).1).2 = true := by
  decide

/-- C4 (amended): once the zobbo countdown is set to 2, the first
`end_turn_common` lowers it to 1 without triggering `reveal_and_finish`,
the second lowers it to 0 and triggers it; thereafter the countdown stays
at 0 and every further `end_turn_common` execution triggers
`reveal_and_finish` again. -/
theorem zobbo_countdown (g : GameState) (c : Player)
    (h : g.zobbo = some ⟨c, 2⟩) :
    (endTurnCommon g).2 = false ∧
    ((endTurnCommon g).1).zobbo = some ⟨c, 1⟩ ∧
    (endTurnCommon (endTurnCommon g).1).2 = true ∧
    ((endTurnCommon (endTurnCommon g).1).1).zobbo = some ⟨c, 0⟩ ∧
    (∀ g2 : GameState, g2.zobbo = some ⟨c, 0⟩ →
      (endTurnCommon g2).2 = true ∧ ((endTurnCommon g2).1).zobbo = some ⟨c, 0⟩) := by
  obtain ⟨h1, h2⟩ := endTurnCommon_zobbo g c 2 h
  obtain ⟨h3, h4⟩ := endTurnCommon_zobbo ((endTurnCommon g).1) c 1 h1
  refine ⟨by simpa using h2, h1, by simpa using h4, by simpa using h3, ?_⟩
  intro g2 hg2
  obtain ⟨h5, h6⟩ := endTurnCommon_zobbo g2 c 0 hg2
  exact ⟨by simpa using h6, by simpa using h5⟩

theorem zobbo_countdown_witness :
    gZobbo2.zobbo = some ⟨Player.b, 2⟩ ∧
    (endTurnCommon gZobbo2).2 = false ∧
    (endTurnCommon (endTurnCommon gZobbo2).1).2 = true := by
  have h := zobbo_countdown gZobbo2 Player.b (by decide)
  exact ⟨by decide, h.1, h.2.2.1⟩

/-- C5: skip semantics of `end_turn_common`. If the non-active seat is in
`skip_next`, `active` is unchanged and that seat is removed from
`skip_next`; otherwise `active` flips to the other seat; in both cases the
stage is reset to `AwaitDraw`. -/
theorem skip_semantics (g : GameState) :
    (skipOf g g.active.other = true →
      ((endTurnCommon g).1).active = g.active ∧
      skipOf (endTurnCommon g).1 g.active.other = false) ∧
    (skipOf g g.active.other = false →
      ((endTurnCommon g).1).active = g.active.other) ∧
    ((endTurnCommon g).1).stage = TurnStage.awaitDraw := by
  obtain ⟨dk, dc, sa, sb, act, st, ka, kb, zb⟩ := g
  cases act <;> cases ka <;> cases kb <;>
    rcases zb with _ | ⟨zc, _ | zn⟩ <;>
      simp [endTurnCommon, skipOf, setSkip, Player.other]

theorem skip_semantics_witness :
    skipOf gSkipW gSkipW.active.other = true ∧
    ((endTurnCommon gSkipW).1).active = gSkipW.active ∧
    skipOf (endTurnCommon gSkipW).1 gSkipW.active.other = false := by
  have h := (skip_semantics gSkipW).1 (by decide)
  exact ⟨by decide, h.1, h.2⟩

/-! ## Seat helper lemmas -/

theorem Player.other_ne (p : Player) : p.other ≠ p := by
  cases p <;> decide

theorem seatOf_setSeat_same (g : GameState) (p : Player) (s : Seat) :
    seatOf (setSeat g p s) p = s := by
  cases p <;> rfl

theorem seatOf_setSeat_other (g : GameState) (p q : Player) (s : Seat)
    (h : q ≠ p) : seatOf (setSeat g p s) q = seatOf g q := by
  cases p <;> cases q <;> first | rfl | exact absurd rfl h

theorem endTurnCommon_seats (g : GameState) (q : Player) :
    seatOf (endTurnCommon g).1 q = seatOf g q := by
  obtain ⟨dk, dc, sa, sb, act, st, ka, kb, zb⟩ := g
  cases act <;> cases ka <;> cases kb <;>
    rcases zb with _ | ⟨zc, _ | zn⟩ <;> cases q <;>
      simp [endTurnCommon, skipOf, setSkip, seatOf, Player.other]

/-- C6: `reveal_and_finish` scores each seat as the sum of the spec's
rank-point table over its occupied slots, and declares as winner the seat
with the strictly lower total, with no winner on equal totals. -/
theorem scoring_law (g : GameState) :
    (revealAndFinish g).1 = ((g.seatA.slots.filterMap id).map specPoints).sum ∧
    (revealAndFinish g).2.1 = ((g.seatB.slots.filterMap id).map specPoints).sum ∧
    ((revealAndFinish g).2.2 = some Player.a ↔
      (revealAndFinish g).1 < (revealAndFinish g).2.1) ∧
    ((revealAndFinish g).2.2 = some Player.b ↔
      (revealAndFinish g).2.1 < (revealAndFinish g).1) ∧
    ((revealAndFinish g).2.2 = none ↔
      (revealAndFinish g).1 = (revealAndFinish g).2.1) := by
  have hpts : rankPoints = specPoints := by
    funext c
    rcases c with ⟨r, s⟩
    cases r <;> cases s <;> rfl
  have h1 : (revealAndFinish g).1 = seatScore g.seatA := rfl
  have h2 : (revealAndFinish g).2.1 = seatScore g.seatB := rfl
  have h3 : (revealAndFinish g).2.2 =
      if seatScore g.seatA < seatScore g.seatB then some Player.a
      else if seatScore g.seatB < seatScore g.seatA then some Player.b
      else none := rfl
  rw [h1, h2, h3]
  unfold seatScore
  rw [hpts]
  refine ⟨rfl, rfl, ?_, ?_, ?_⟩ <;>
    split_ifs with ha hb <;> simp_all <;> omega

/-- C7: every action requiring `active == p` fails without mutation when
`p` is not active; the Zobbo call fails when `p` is active or the stage is
not `AwaitDraw`; when permitted it sets the countdown only if none is
pending, and a second call while one is pending leaves the state
unchanged. -/
theorem turn_exclusivity_and_zobbo (g : GameState) (p : Player)
    (sh : List Card → List Card) (src : DrawSource) (i j : Nat) :
    (p ≠ g.active →
      handleDraw sh g p src = none ∧
      handleSwapWithHand g p i = none ∧
      handleDiscardDrawn g p = none ∧
      handlePowerCheckOwn g p i = none ∧
      handlePowerCheckOpp g p i = none ∧
      handlePowerSwapWithDeck sh g p i = none ∧
      handlePowerSwapWithOpp g p i j = none ∧
      handlePowerOppSwapWithDeck sh g p i = none ∧
      handleEndTurn g p = none) ∧
    (p = g.active → handleCallZobbo g p = none) ∧
    (g.stage ≠ TurnStage.awaitDraw → handleCallZobbo g p = none) ∧
    (p ≠ g.active → g.stage = TurnStage.awaitDraw → g.zobbo = none →
      handleCallZobbo g p = some { g with zobbo := some ⟨p, 2⟩ }) ∧
    (∀ z : ZobboState, p ≠ g.active → g.stage = TurnStage.awaitDraw →
      g.zobbo = some z → handleCallZobbo g p = some g) := by
  refine ⟨?_, ?_, ?_, ?_, ?_⟩
  · intro h
    have h2 : g.active ≠ p := fun e => h e.symm
    exact ⟨by simp [handleDraw, h2], by simp [handleSwapWithHand, h2],
           by simp [handleDiscardDrawn, h2], by simp [handlePowerCheckOwn, h2],
           by simp [handlePowerCheckOpp, h2], by simp [handlePowerSwapWithDeck, h2],
           by simp [handlePowerSwapWithOpp, h2],
           by simp [handlePowerOppSwapWithDeck, h2],
           by simp [handleEndTurn, h2]⟩
  · intro h
    by_cases hst : g.stage = TurnStage.awaitDraw <;>
      simp [handleCallZobbo, hst, h.symm]
  · intro hst
    simp [handleCallZobbo, hst]
  · intro h hst hz
    have h2 : g.active ≠ p := fun e => h e.symm
    simp [handleCallZobbo, hst, h2, hz]
  · intro z h hst hz
    have h2 : g.active ≠ p := fun e => h e.symm
    simp [handleCallZobbo, hst, h2, hz]

theorem turn_exclusivity_witness :
    Player.b ≠ gMatchReady.active ∧
    handleDraw id gMatchReady Player.b DrawSource.deck = none ∧
    handleEndTurn gMatchReady Player.b = none ∧
    handleCallZobbo gMatchReady Player.b
      = some { gMatchReady with zobbo := some ⟨Player.b, 2⟩ } := by
  have h := turn_exclusivity_and_zobbo gMatchReady Player.b id DrawSource.deck 0 0
  exact ⟨by decide, (h.1 (by decide)).1, (h.1 (by decide)).2.2.2.2.2.2.2.2,
         h.2.2.2.1 (by decide) (by decide) (by decide)⟩

/-- C10 (implicit): `handle_match_top` is gated by neither turn nor stage:
for any state with a non-empty discard and an in-range occupied own slot of
the attempting player — whoever they are and whatever the stage — it
proceeds, clearing the slot and bumping its version on a rank match and
adding the attempting player to `skip_next` on a mismatch. -/
theorem match_top_ungated (g : GameState) (p : Player) (i : Nat)
    (c top : Card) (rest : List Card)
    (hd : g.discard = top :: rest)
    (hs : (seatOf g p).slots[i]? = some (some c)) :
    (c.rank = top.rank →
      handleMatchTop g p i = some (setSeat g p
        ⟨(seatOf g p).slots.set i none, bumpVersion (seatOf g p).versions i⟩)) ∧
    (c.rank ≠ top.rank → handleMatchTop g p i = some (setSkip g p true)) := by
  constructor <;> intro hr <;> simp [handleMatchTop, hd, hs, hr]

theorem match_top_ungated_witness :
    gMatchReady.active = Player.a ∧
    handleMatchTop gMatchReady Player.b 0 = some (setSkip gMatchReady Player.b true) := by
  refine ⟨by decide, ?_⟩
  exact (match_top_ungated gMatchReady Player.b 0 (Card.mk Rank.seven Suit.clubs)
    (Card.mk Rank.ace Suit.diamonds) [Card.mk Rank.king Suit.clubs]
    (by decide) (by decide)).2 (by decide)

/-- C8: Queen-power atomicity. With stage `Power{Queen}` and the acting
player active, the swap-with-opponent action fails with no state change
(the source rolls back the removed card before reporting failure) whenever
either operand slot is out of range or empty; when both are in range and
occupied the two cards are exchanged and both slot versions are bumped
exactly once. -/
theorem queen_swap_atomicity (g : GameState) (p : Player) (i j : Nat)
    (card : Card) (hst : g.stage = TurnStage.power card)
    (hq : card.rank = Rank.queen) (hp : g.active = p) :
    (((seatOf g p).slots[i]? = none ∨ (seatOf g p).slots[i]? = some none ∨
      (seatOf g p.other).slots[j]? = none ∨
      (seatOf g p.other).slots[j]? = some none) →
      handlePowerSwapWithOpp g p i j = none) ∧
    (∀ cm co : Card, (seatOf g p).slots[i]? = some (some cm) →
      (seatOf g p.other).slots[j]? = some (some co) →
      (handlePowerSwapWithOpp g p i j).map
          (fun g2 => (seatOf g2 p, seatOf g2 p.other))
        = some
          (⟨(seatOf g p).slots.set i (some co), bumpVersion (seatOf g p).versions i⟩,
           ⟨(seatOf g p.other).slots.set j (some cm),
            bumpVersion (seatOf g p.other).versions j⟩)) := by
  have hne : p.other ≠ p := Player.other_ne p
  constructor
  · intro hbad
    rcases hmi : (seatOf g p).slots[i]? with _ | mi
    · simp [handlePowerSwapWithOpp, hp, hst, hq, hmi]
    · rcases mi with _ | cm
      · simp [handlePowerSwapWithOpp, hp, hst, hq, hmi]
      · rcases hmj : (seatOf g p.other).slots[j]? with _ | mj
        · simp [handlePowerSwapWithOpp, hp, hst, hq, hmi, hmj]
        · rcases mj with _ | co
          · simp [handlePowerSwapWithOpp, hp, hst, hq, hmi, hmj]
          · rcases hbad with h | h | h | h <;> simp_all
  · intro cm co h1 h2
    simp only [handlePowerSwapWithOpp, hp, hst, hq]
    rw [List.get?_eq_getElem?, List.get?_eq_getElem?]
    simp only [h1, h2]
    simp [seatOf_setSeat_same, seatOf_setSeat_other _ _ _ _ hne,
          seatOf_setSeat_other _ _ _ _ (Ne.symm hne), endTurnCommon_seats]

theorem queen_swap_atomicity_witness :
    gQueenW.stage = TurnStage.power (Card.mk Rank.queen Suit.spades) ∧
    (handlePowerSwapWithOpp gQueenW Player.a 0 0).map
        (fun g2 => (seatOf g2 Player.a, seatOf g2 Player.b))
      = some
        (⟨(seatOf gQueenW Player.a).slots.set 0
            (some (Card.mk Rank.seven Suit.clubs)),
          bumpVersion (seatOf gQueenW Player.a).versions 0⟩,
         ⟨(seatOf gQueenW Player.b).slots.set 0
            (some (Card.mk Rank.ace Suit.clubs)),
          bumpVersion (seatOf gQueenW Player.b).versions 0⟩) := by
  refine ⟨by decide, ?_⟩
  exact (queen_swap_atomicity gQueenW Player.a 0 0
      (Card.mk Rank.queen Suit.spades) (by decide) (by decide) (by decide)).2
    (Card.mk Rank.ace Suit.clubs) (Card.mk Rank.seven Suit.clubs)
    (by decide) (by decide)

/-! ## base64url and token lemmas -/

theorem b64charVal_b64char : ∀ n, n < 64 → b64charVal (b64char n) = some n := by
  decide

theorem b64char_ne_dot : ∀ n, n < 64 → b64char n ≠ '.' := by
  decide

theorem not_dot_mem_b64encode : ∀ bs : List Nat, (∀ b ∈ bs, b < 256) →
    '.' ∉ b64encode bs
  | [], _ => by simp [b64encode]
  | [b1], h => by
      have h1 : b1 < 256 := h _ (by simp)
      intro hmem
      simp only [b64encode, List.mem_cons, List.not_mem_nil, or_false] at hmem
      rcases hmem with e | e
      · exact b64char_ne_dot _ (by omega) e.symm
      · exact b64char_ne_dot _ (by omega) e.symm
  | [b1, b2], h => by
      have h1 : b1 < 256 := h _ (by simp)
      have h2 : b2 < 256 := h _ (by simp)
      intro hmem
      simp only [b64encode, List.mem_cons, List.not_mem_nil, or_false] at hmem
      rcases hmem with e | e | e
      · exact b64char_ne_dot _ (by omega) e.symm
      · exact b64char_ne_dot _ (by omega) e.symm
      · exact b64char_ne_dot _ (by omega) e.symm
  | b1 :: b2 :: b3 :: rest, h => by
      have h1 : b1 < 256 := h _ (by simp)
      have h2 : b2 < 256 := h _ (by simp)
      have h3 : b3 < 256 := h _ (by simp)
      have ih := not_dot_mem_b64encode rest (fun b hb => h b (by simp [hb]))
      intro hmem
      simp only [b64encode, List.mem_cons] at hmem
      rcases hmem with e | e | e | e | e
      · exact b64char_ne_dot _ (by omega) e.symm
      · exact b64char_ne_dot _ (by omega) e.symm
      · exact b64char_ne_dot _ (by omega) e.symm
      · exact b64char_ne_dot _ (by omega) e.symm
      · exact ih e

theorem b64_roundtrip : ∀ bs : List Nat, (∀ b ∈ bs, b < 256) →
    b64decode (b64encode bs) = some bs
  | [], _ => rfl
  | [b1], h => by
      have h1 : b1 < 256 := h _ (by simp)
      simp only [b64encode, b64decode]
      rw [b64charVal_b64char _ (by omega), b64charVal_b64char _ (by omega)]
      simp only
      rw [if_pos (by omega)]
      have e1 : b1 / 4 * 4 + b1 % 4 * 16 / 16 = b1 := by omega
      rw [e1]
  | [b1, b2], h => by
      have h1 : b1 < 256 := h _ (by simp)
      have h2 : b2 < 256 := h _ (by simp)
      simp only [b64encode, b64decode]
      rw [b64charVal_b64char _ (by omega), b64charVal_b64char _ (by omega),
          b64charVal_b64char _ (by omega)]
      simp only
      rw [if_pos (by omega)]
      have e1 : (b1 % 4 * 16 + b2 / 16) / 16 = b1 % 4 := by omega
      have e2 : (b1 % 4 * 16 + b2 / 16) % 16 = b2 / 16 := by omega
      have e3 : b2 % 16 * 4 / 4 = b2 % 16 := by omega
      rw [e1, e2, e3]
      have e4 : b1 / 4 * 4 + b1 % 4 = b1 := by omega
      have e5 : b2 / 16 * 16 + b2 % 16 = b2 := by omega
      rw [e4, e5]
  | b1 :: b2 :: b3 :: rest, h => by
      have h1 : b1 < 256 := h _ (by simp)
      have h2 : b2 < 256 := h _ (by simp)
      have h3 : b3 < 256 := h _ (by simp)
      have ih := b64_roundtrip rest (fun b hb => h b (by simp [hb]))
      simp only [b64encode, b64decode]
      rw [b64charVal_b64char _ (by omega), b64charVal_b64char _ (by omega),
          b64charVal_b64char _ (by omega), b64charVal_b64char _ (by omega), ih]
      simp only
      have e1 : b1 / 4 * 4 + (b1 % 4 * 16 + b2 / 16) / 16 = b1 := by omega
      have e2 : (b1 % 4 * 16 + b2 / 16) % 16 * 16 +
          (b2 % 16 * 4 + b3 / 64) / 4 = b2 := by omega
      have e3 : (b2 % 16 * 4 + b3 / 64) % 4 * 64 + b3 % 64 = b3 := by omega
      rw [e1, e2, e3]

theorem splitOnDot_no_dot : ∀ s : List Char, '.' ∉ s → splitOnDot s = [s]
  | [], _ => rfl
  | c :: rest, h => by
      have hc : ¬c = '.' := fun e => h (by simp [e])
      have ih := splitOnDot_no_dot rest (fun hm => h (by simp [hm]))
      simp [splitOnDot, hc, ih]

theorem splitOnDot_append (s t : List Char) (hs : '.' ∉ s) :
    splitOnDot (s ++ '.' :: t) = s :: splitOnDot t := by
  induction s with
  | nil => simp [splitOnDot]
  | cons c rest ih =>
      have hc : ¬c = '.' := fun e => hs (by simp [e])
      have ih2 := ih (fun hm => hs (by simp [hm]))
      simp [splitOnDot, hc, ih2]

/-- C9: token round-trip and tamper rejection. For any HMAC function and
any claims serializer/parser satisfying their library contracts at the
given room/player/timestamp (byte-valued output; parsing inverts
serialization), verifying a just-issued token returns exactly the
(room, player) pair; and verification fails on any token whose signature
segment does not byte-exactly match the HMAC of the decoded payload, on
any token with more than two dot-separated segments, and on any payload
that does not parse. -/
theorem token_roundtrip_and_rejection
    (hmac : List Nat → List Nat) (ser : Nat → Nat → Int → List Nat)
    (parse : List Nat → Option (Nat × Nat)) (r p : Nat) (t : Int)
    (hserB : ∀ b ∈ ser r p t, b < 256)
    (hsigB : ∀ b ∈ hmac (ser r p t), b < 256)
    (hparse : parse (ser r p t) = some (r, p)) :
    verifyToken hmac parse (issueToken hmac ser r p t) = some (r, p) ∧
    (∀ (tok : List Char) (p1 p2 : List Char) (payload sig : List Nat),
      splitOnDot tok = [p1, p2] →
      b64decode p1 = some payload → b64decode p2 = some sig →
      sig ≠ hmac payload → verifyToken hmac parse tok = none) ∧
    (∀ tok : List Char, 3 ≤ (splitOnDot tok).length →
      verifyToken hmac parse tok = none) ∧
    (∀ (tok : List Char) (p1 p2 : List Char) (payload sig : List Nat),
      splitOnDot tok = [p1, p2] →
      b64decode p1 = some payload → b64decode p2 = some sig →
      sig = hmac payload → parse payload = none →
      verifyToken hmac parse tok = none) := by
  refine ⟨?_, ?_, ?_, ?_⟩
  · unfold issueToken verifyToken
    rw [splitOnDot_append _ _ (not_dot_mem_b64encode _ hserB),
        splitOnDot_no_dot _ (not_dot_mem_b64encode _ hsigB)]
    simp [b64_roundtrip _ hserB, b64_roundtrip _ hsigB, hparse]
  · intro tok p1 p2 payload sig hsp h1 h2 hne
    simp [verifyToken, hsp, h1, h2, hne]
  · intro tok hlen
    unfold verifyToken
    rcases hsp : splitOnDot tok with _ | ⟨q1, _ | ⟨q2, _ | ⟨q3, qs⟩⟩⟩ <;>
      simp_all
  · intro tok p1 p2 payload sig hsp h1 h2 he hp0
    simp [verifyToken, hsp, h1, h2, he, hp0]

theorem token_roundtrip_witness :
    parseW (serW 7 9 0) = some (7, 9) ∧
    verifyToken hmacW parseW (issueToken hmacW serW 7 9 0) = some (7, 9) := by
  have h := token_roundtrip_and_rejection hmacW serW parseW 7 9 0
    (by decide) (by decide) (by decide)
  exact ⟨by decide, h.1⟩
